import Mathlib

/-
Verification of the trivia REST backend (src/backend/flaskr/init module).

The request-handling logic of the Flask application is shallowly embedded:
each route handler becomes a Lean function from an explicit request / storage
state to an `Except` value, `abort(n)` becomes an error value, and the bare
`try/except` blocks of the source become explicit remapping of any error
raised in the embedded try body.  SQLAlchemy queries become list operations
over an explicit storage state; `ilike` becomes an executable SQL LIKE
pattern matcher.  The module `models` is not part of the repository, so the
record shapes and id assignment are modelled from the specification (see the
doc comments marked as such).
-/

namespace Trivia

/-- A stored question record.  Modelled from the spec: the `models` module is
not in the repository; the spec gives the fields `id` (unique, assigned by
storage), `question` (text), `answer` (text), `category` (id reference) and
`difficulty` (numeric). -/
structure Question where
  id : Nat
  question : String
  answer : String
  category : Nat
  difficulty : Nat
deriving DecidableEq

/-- A stored category record.  Modelled from the spec: `id` (unique) and
`type` (text label). -/
structure Category where
  id : Nat
  type : String
deriving DecidableEq

/-- The durable storage state: the two tables plus the next id the storage
assigns on insert (modelled from the spec: ids are unique and assigned by
storage). -/
structure Storage where
  questions : List Question
  categories : List Category
  nextId : Nat
deriving DecidableEq

/-- The part of the HTTP request the handlers read besides the body: the
`page` query parameter.  `none` means the parameter is absent; `some none`
means it is present but does not parse as an integer (werkzeug's `type=int`
coercion fails); `some (some k)` means it parses to `k`. -/
structure HttpRequest where
  pageArg : Option (Option Int)
deriving DecidableEq

/-- QUESTIONS_PER_PAGE constant of the source. -/
def QUESTIONS_PER_PAGE : Nat := 10

/-- Serialization of a question record.  Modelled from the spec: each
question serializes as exactly its five fields `id, question, answer,
category, difficulty`, hence the identity on the record. -/
def Question.format (q : Question) : Question := q

/-- Embeds `request.args.get('page', page_num, type=int)`: the parsed value
when the parameter is present and parses, the supplied default otherwise. -/
def argsGetPage (req : HttpRequest) (page_num : Int) : Int :=
  match req.pageArg with
  | some (some k) => k
  | _ => page_num

/-- Python list slicing `l[start:stop]` (step 1): negative indices count from
the end, then both bounds are clamped to `[0, length]`. -/
def pySlice {α : Type} (l : List α) (start stop : Int) : List α :=
  let n : Int := l.length
  let s : Int := if start < 0 then max (n + start) 0 else min start n
  let e : Int := if stop < 0 then max (n + stop) 0 else min stop n
  (l.drop s.toNat).take (e - s).toNat

/-- The pagination helper `paginate_questions(request, selection, page_num)`
of the source: reads the page from the query string (falling back to the
`page_num` argument), formats the selection and returns the Python slice
`questions[start:end]` with `start = (page-1)*10` and `end = start+10`. -/
def paginate_questions (req : HttpRequest) (selection : List Question)
    (page_num : Int) : List Question :=
  let page := argsGetPage req page_num
  let start := (page - 1) * (QUESTIONS_PER_PAGE : Int)
  let stop := start + (QUESTIONS_PER_PAGE : Int)
  let questions := selection.map Question.format
  pySlice questions start stop

/-- Insertion step of the stable insertion sort used to model `order_by`. -/
def insertByKey {α : Type} (key : α → Nat) (x : α) : List α → List α
  | [] => [x]
  | y :: ys => if key x ≤ key y then x :: y :: ys else y :: insertByKey key x ys

/-- Stable sort by a numeric key, modelling SQL `ORDER BY`. -/
def sortByKey {α : Type} (key : α → Nat) : List α → List α
  | [] => []
  | x :: xs => insertByKey key x (sortByKey key xs)

/-- `Question.query.order_by(Question.id).all()`. -/
def sortById (l : List Question) : List Question := sortByKey Question.id l

/-- `Category.query.order_by(Category.id).all()` followed by the dict
comprehension building `{cat.id: cat.type}`. -/
def cat_dict (s : Storage) : List (Nat × String) :=
  (sortByKey Category.id s.categories).map (fun c => (c.id, c.type))

/-- The four HTTP error kinds the application maps (400, 404, 405, 422). -/
inductive HttpError where
  | badRequest
  | notFound
  | notAllowed
  | unprocessable
deriving DecidableEq

/-- A Python exception as seen by the handlers: either a flask `abort`
(werkzeug HTTPException) or some other exception raised by the persistence
layer. -/
inductive PyExc where
  | http : HttpError → PyExc
  | dbError : PyExc
deriving DecidableEq

/-- The fixed JSON error envelope `{success, error, message}`. -/
structure ErrorEnvelope where
  success : Bool
  error : Nat
  message : String
deriving DecidableEq

/-- Error handler for 400 of the source: envelope plus status code. -/
def bad_request : ErrorEnvelope × Nat :=
  (⟨false, 400, "bad request"⟩, 400)

/-- Error handler for 404 of the source: envelope plus status code. -/
def not_found : ErrorEnvelope × Nat :=
  (⟨false, 404, "resource not found"⟩, 404)

/-- Error handler for 405 of the source: envelope plus status code. -/
def not_allowed : ErrorEnvelope × Nat :=
  (⟨false, 405, "method not allowed"⟩, 405)

/-- Error handler for 422 of the source: envelope plus status code. -/
def unprocessable : ErrorEnvelope × Nat :=
  (⟨false, 422, "unprocessable"⟩, 422)

/-- The registered error handlers, dispatching an HTTP error kind to its
fixed envelope and status code. -/
def errorResponse : HttpError → ErrorEnvelope × Nat
  | .badRequest => bad_request
  | .notFound => not_found
  | .notAllowed => not_allowed
  | .unprocessable => unprocessable

/-- Fuel-driven worker for SQL LIKE matching; every recursive call strictly
shrinks `pattern.length + text.length`, so any fuel above that sum computes
the true answer (structural recursion on the fuel keeps the function
kernel-reducible for concrete inputs). -/
def likeMatchAux : Nat → List Char → List Char → Bool
  | 0, _, _ => false
  | _ + 1, [], t => t.isEmpty
  | fuel + 1, a :: p, [] => if a = '%' then likeMatchAux fuel p [] else false
  | fuel + 1, a :: p, c :: t =>
      if a = '%' then likeMatchAux fuel p (c :: t) || likeMatchAux fuel (a :: p) t
      else if a = '_' then likeMatchAux fuel p t
      else (a.toLower == c.toLower) && likeMatchAux fuel p t

/-- SQL LIKE pattern matching as evaluated by `ilike` (case-insensitive,
anchored at both ends): `%` matches any sequence of characters, `_` matches
any single character, every other pattern character matches itself up to
case. -/
def likeMatch (p t : List Char) : Bool :=
  likeMatchAux (p.length + t.length + 1) p t

/-- The `ilike` pattern built by the search branch:
`'%{}%'.format(search)`. -/
def searchPattern (search : String) : List Char :=
  '%' :: (search.data ++ ['%'])

/-- Character-wise lowering, the case folding underlying `ilike`. -/
def lowerStr (l : List Char) : List Char := l.map Char.toLower

/-- Boolean test that `needle` is an initial segment of `hay` (exact
characters). -/
def prefixCheck : List Char → List Char → Bool
  | [], _ => true
  | _ :: _, [] => false
  | a :: as, b :: bs => (a == b) && prefixCheck as bs

/-- Boolean test that `needle` occurs contiguously inside `hay`. -/
def containsSub (needle : List Char) : List Char → Bool
  | [] => prefixCheck needle []
  | c :: t => prefixCheck needle (c :: t) || containsSub needle (t)

/-- Case-insensitive substring test, the reading of "contains s as a
case-insensitive substring" used by the specification. -/
def containsCI (needle hay : String) : Bool :=
  containsSub (lowerStr needle.data) (lowerStr hay.data)

/-- A search term is wildcard-free when it uses no SQL LIKE metacharacter. -/
def noWild (s : String) : Bool :=
  s.data.all (fun c => ¬ c = '%' ∧ ¬ c = '_')

/-- Python truthiness of the optional `searchTerm` field: a string is truthy
exactly when it is non-empty. -/
def truthy : Option String → Bool
  | none => false
  | some s => ¬ s.data = []

/-- Parsed JSON body of a POST /questions request: the optional fields the
handler reads with `body.get`. -/
structure RequestBody where
  searchTerm : Option String
  question : Option String
  answer : Option String
  category : Option Nat
  difficulty : Option Nat
deriving DecidableEq

/-- The `quiz_category` object of a POST /quizzes body. -/
structure QuizCategory where
  id : Nat
  type : String
deriving DecidableEq

/-- Parsed JSON body of a POST /quizzes request. -/
structure QuizBody where
  previous_questions : Option (List Nat)
  quiz_category : Option QuizCategory
deriving DecidableEq

/-- Success payload of GET /questions. -/
structure QuestionsPayload where
  questions : List Question
  total_questions : Nat
  categories : List (Nat × String)
deriving DecidableEq

/-- Success payload of DELETE /questions/{id}. -/
structure DeletePayload where
  deleted : Nat
  questions : List Question
  total_questions : Nat
deriving DecidableEq

/-- Success payload of POST /questions: the search branch returns questions
and total, the create branch additionally returns the created id. -/
inductive CSResult where
  | searchRes (questions : List Question) (total_questions : Nat)
  | createRes (created : Nat) (questions : List Question) (total_questions : Nat)
deriving DecidableEq

/-- Success payload of GET /categories/{id}/questions. -/
structure CategoryQuestionsPayload where
  questions : List Question
  total_questions : Nat
  current_category : String
deriving DecidableEq

/-- Handler of GET /questions (`retrieve_questions`): all questions ordered
by id, paginated with the default page number 1; 404 when the requested page
is empty. -/
def retrieve_questions (req : HttpRequest) (s : Storage) :
    Except PyExc QuestionsPayload :=
  let selection := sortById s.questions
  let current_questions := paginate_questions req selection 1
  if current_questions.length = 0 then
    .error (.http .notFound)
  else
    .ok ⟨current_questions, selection.length, cat_dict s⟩

/-- Handler of DELETE /questions/{id} (`delete_question`).  The whole body of
the source handler runs inside `try:`, with a bare `except:` that calls
`abort(422)`; in particular the `abort(404)` raised when the id is missing is
itself caught by that `except:` and remapped.  The embedding makes the try
body explicit and then remaps any error it produced, exactly as the bare
`except:` does. -/
def delete_question (req : HttpRequest) (s : Storage) (question_id : Nat) :
    Except PyExc (Storage × DeletePayload) :=
  let tryBody : Except PyExc (Storage × DeletePayload) :=
    match s.questions.find? (fun q => q.id == question_id) with
    | none => .error (.http .notFound)
    | some _ =>
      let s' : Storage :=
        ⟨s.questions.filter (fun q => ! (q.id == question_id)), s.categories, s.nextId⟩
      let selection := sortById s'.questions
      let current_questions := paginate_questions req selection 1
      .ok (s', ⟨question_id, current_questions, selection.length⟩)
  match tryBody with
  | .error _ => .error (.http .unprocessable)
  | .ok r => .ok r

/-- Handler of POST /questions (`create_search_question`).  The search branch
runs when `searchTerm` is truthy; otherwise the create branch runs inside a
`try:` whose bare `except:` remaps every exception to 422.  `insertOk` is the
oracle for the persistence layer (modelled from the spec: "if the underlying
insert fails for any reason" the broad failure capture maps it to
Unprocessable); `insertOk = false` makes `question.insert()` raise. -/
def create_search_question (req : HttpRequest) (s : Storage)
    (body : RequestBody) (insertOk : Bool) :
    Except PyExc (Storage × CSResult) :=
  if truthy body.searchTerm then
    let search := body.searchTerm.getD ""
    let selection := (sortById s.questions).filter
      (fun q => likeMatch (searchPattern search) q.question.data)
    if selection.length = 0 then
      .error (.http .notFound)
    else
      let current_questions := paginate_questions req selection 1
      .ok (s, .searchRes current_questions selection.length)
  else
    let tryBody : Except PyExc (Storage × CSResult) :=
      match body.question, body.answer, body.category, body.difficulty with
      | some nq, some na, some nc, some nd =>
        if insertOk then
          let q : Question := ⟨s.nextId, nq, na, nc, nd⟩
          let s' : Storage := ⟨s.questions ++ [q], s.categories, s.nextId + 1⟩
          let selection := sortById s'.questions
          let page_num : Nat := (selection.length + 9) / 10
          let current_questions := paginate_questions req selection page_num
          .ok (s', .createRes q.id current_questions selection.length)
        else
          .error .dbError
      | _, _, _, _ => .error (.http .unprocessable)
    match tryBody with
    | .error _ => .error (.http .unprocessable)
    | .ok r => .ok r

/-- Handler of GET /categories/{id}/questions
(`retrieve_questions_by_selected_category`): 400 when the category id is
unknown, otherwise the questions of that category (storage order, no
`order_by`), paginated, with total count and the category label; no
emptiness check. -/
def retrieve_questions_by_selected_category (req : HttpRequest) (s : Storage)
    (category_id : Nat) : Except PyExc CategoryQuestionsPayload :=
  match s.categories.find? (fun c => c.id == category_id) with
  | none => .error (.http .badRequest)
  | some category =>
    let selection := s.questions.filter (fun q => q.category == category.id)
    let current_questions := paginate_questions req selection 1
    .ok ⟨current_questions, selection.length, category.type⟩

/-- Tail of the quiz handler: `if len(questions) == 0` return bare success,
otherwise `random.choice(questions)` is returned formatted.  `random.choice`
is modelled by the ambient index `choice` reduced modulo the pool size, so
every pool member is a possible output. -/
def choose_random (questions : List Question) (choice : Nat) :
    Except PyExc (Option Question) :=
  if h : questions.length = 0 then
    .ok none
  else
    .ok (some (Question.format (questions.get
      ⟨choice % questions.length, Nat.mod_lt _ (Nat.pos_of_ne_zero h)⟩)))

/-- Handler of POST /quizzes (`create_quiz_questions`): 400 when either body
field is null/absent; pool selection by category (id 0 means all), exclusion
of `previous_questions` (only applied when the list is non-empty, exactly as
in the source); `random.choice` is modelled by the ambient index `choice`,
reduced modulo the pool size, so that every pool member is a possible
output.  An empty pool yields success with no question. -/
def create_quiz_questions (s : Storage) (body : QuizBody) (choice : Nat) :
    Except PyExc (Option Question) :=
  match body.previous_questions, body.quiz_category with
  | some previous_questions, some quiz_category =>
    let base :=
      if quiz_category.id = 0 then s.questions
      else s.questions.filter (fun q => q.category == quiz_category.id)
    let questions :=
      if previous_questions.length ≠ 0 then
        base.filter (fun q => ! previous_questions.contains q.id)
      else base
    choose_random questions choice
  | _, _ => .error (.http .badRequest)

/-- A request whose query string carries `page=p`. -/
def reqPage (p : Int) : HttpRequest := ⟨some (some p)⟩

/-- A request with no `page` query parameter. -/
def reqNone : HttpRequest := ⟨none⟩

/-- Concrete question fixture with the given id. -/
def mkQ (i : Nat) : Question := ⟨i, "q", "a", 1, 1⟩

/-- Eleven stored questions with ids 1..11. -/
def qs11 : List Question := (List.range 11).map (fun i => mkQ (i + 1))

/-- Concrete storage holding eleven questions and one category. -/
def store11 : Storage := ⟨qs11, [⟨1, "Science"⟩], 12⟩

/-- A create body with all four required fields present. -/
def body11 : RequestBody := ⟨none, some "nq", some "na", some 1, some 1⟩

/-- Concrete question whose text is "abc". -/
def qAbc : Question := ⟨1, "abc", "a", 1, 1⟩

/-- Concrete storage holding only the question "abc". -/
def storeAbc : Storage := ⟨[qAbc], [⟨1, "Science"⟩], 2⟩

/-- A search body whose search term is the single LIKE wildcard `%`. -/
def bodyPct : RequestBody := ⟨some "%", none, none, none, none⟩

/-- Twenty stored questions with ids 1..20. -/
def qs20 : List Question := (List.range 20).map (fun i => mkQ (i + 1))

/-- The quiz candidate pool as the specification describes it: all questions
(category id 0) or the questions of the requested category, minus every
question whose id appears in `previous_questions`. -/
def quizPool (s : Storage) (pq : List Nat) (qc : QuizCategory) : List Question :=
  (if qc.id = 0 then s.questions
   else s.questions.filter (fun q => q.category == qc.id)).filter
    (fun q => ! pq.contains q.id)

/-- Storage with no questions at all. -/
def storeEmpty : Storage := ⟨[], [], 1⟩

/-- The first ten formatted questions of the eleven-question fixture. -/
def firstTen : List Question := (List.range 10).map (fun i => mkQ (i + 1))

/-- Concrete question whose text is "xaBy". -/
def qAB : Question := ⟨1, "xaBy", "a", 1, 1⟩

/-- Concrete storage holding only the question "xaBy". -/
def storeAB : Storage := ⟨[qAB], [⟨1, "Science"⟩], 2⟩

/-- A search body whose wildcard-free search term is "AB". -/
def bodyAB : RequestBody := ⟨some "AB", none, none, none, none⟩

/-- Python slicing with nonnegative in-order bounds is drop-then-take. -/
theorem pySlice_ofNat {α : Type} (l : List α) (a b : Nat) :
    pySlice l (a : Int) (b : Int) = (l.drop a).take (b - a) := by
  unfold pySlice
  have ha : ¬ ((a : Int) < 0) := by omega
  have hb : ¬ ((b : Int) < 0) := by omega
  simp only [ha, hb, if_false]
  have hA : (min (a : Int) (l.length : Int)).toNat = min a l.length := by omega
  have hE : (min (b : Int) (l.length : Int) - min (a : Int) (l.length : Int)).toNat
      = min b l.length - min a l.length := by omega
  rw [hA, hE]
  rcases le_or_lt a l.length with h | h
  · rw [min_eq_left h]
    rcases le_or_lt b l.length with h2 | h2
    · rw [min_eq_left h2]
    · rw [min_eq_right (le_of_lt h2)]
      rw [List.take_of_length_le, List.take_of_length_le]
      all_goals simp only [List.length_drop]
      all_goals omega
  · rw [min_eq_right (le_of_lt h)]
    rw [List.drop_length, List.drop_eq_nil_of_le (le_of_lt h)]
    simp

/-- With an effective page of at least 1, pagination is drop-then-take at
offset `(page-1)*10`. -/
theorem paginate_pos (req : HttpRequest) (sel : List Question) (pn : Int)
    (h1 : 1 ≤ argsGetPage req pn) :
    paginate_questions req sel pn
      = ((sel.map Question.format).drop ((argsGetPage req pn - 1) * 10).toNat).take 10 := by
  simp only [paginate_questions, QUESTIONS_PER_PAGE]
  set p := argsGetPage req pn with hp
  have hcast : (p - 1) * ((10 : Nat) : Int) = ((((p - 1) * 10).toNat : Nat) : Int) := by
    push_cast
    omega
  rw [hcast]
  have hcast2 : ((((p - 1) * 10).toNat : Nat) : Int) + ((10 : Nat) : Int)
      = ((((p - 1) * 10).toNat + 10 : Nat) : Int) := by
    push_cast
    ring
  rw [hcast2, pySlice_ofNat]
  congr 1
  omega

/-- Insertion into a sorted-by-key list preserves length. -/
theorem length_insertByKey {α : Type} (key : α → Nat) (x : α) (l : List α) :
    (insertByKey key x l).length = l.length + 1 := by
  induction l with
  | nil => rfl
  | cons y ys ih =>
    unfold insertByKey
    by_cases h : key x ≤ key y <;> simp [h, ih]

/-- The modelled ORDER BY preserves length. -/
theorem length_sortByKey {α : Type} (key : α → Nat) (l : List α) :
    (sortByKey key l).length = l.length := by
  induction l with
  | nil => rfl
  | cons y ys ih => simp [sortByKey, length_insertByKey, ih]

/-- Membership is preserved by the modelled ORDER BY (both directions). -/
theorem mem_insertByKey {α : Type} (key : α → Nat) (x a : α) (l : List α) :
    a ∈ insertByKey key x l ↔ a = x ∨ a ∈ l := by
  induction l with
  | nil => simp [insertByKey]
  | cons y ys ih =>
    unfold insertByKey
    by_cases h : key x ≤ key y
    · simp [h]
    · simp [h, ih]
      tauto

/-- Membership in the modelled ORDER BY is membership in the input. -/
theorem mem_sortByKey {α : Type} (key : α → Nat) (a : α) (l : List α) :
    a ∈ sortByKey key l ↔ a ∈ l := by
  induction l with
  | nil => simp [sortByKey]
  | cons y ys ih => simp [sortByKey, mem_insertByKey, ih]

/-- Concatenating the 10-element chunks `0..k-1` of a list recovers its first
`k*10` elements. -/
theorem join_chunks {α : Type} (m : List α) (k : Nat) :
    ((List.range k).map (fun i => (m.drop (i * 10)).take 10)).flatten
      = m.take (k * 10) := by
  induction k with
  | zero => simp
  | succ k ih =>
    rw [List.range_succ, List.map_append, List.flatten_append, ih]
    simp only [List.map_cons, List.map_nil, List.flatten_cons, List.flatten_nil,
      List.append_nil]
    rw [Nat.succ_mul, List.take_add]

/-- The LIKE worker is fuel-irrelevant above the combined length. -/
theorem likeMatchAux_congr :
    ∀ (f₁ f₂ : Nat) (p t : List Char), p.length + t.length < f₁ →
      p.length + t.length < f₂ → likeMatchAux f₁ p t = likeMatchAux f₂ p t := by
  intro f₁
  induction f₁ with
  | zero =>
    intro f₂ p t h1 h2
    omega
  | succ f ih =>
    intro f₂ p t h1 h2
    cases f₂ with
    | zero => omega
    | succ g =>
      cases p with
      | nil => rfl
      | cons a p =>
        cases t with
        | nil =>
          simp only [likeMatchAux]
          simp only [List.length_cons, List.length_nil] at h1 h2
          by_cases hpc : a = '%'
          · rw [if_pos hpc, if_pos hpc, ih g p []]
            · simp only [List.length_nil]
              omega
            · simp only [List.length_nil]
              omega
          · rw [if_neg hpc, if_neg hpc]
        | cons c t =>
          simp only [likeMatchAux]
          simp only [List.length_cons] at h1 h2
          by_cases hpc : a = '%'
          · rw [if_pos hpc, if_pos hpc, ih g p (c :: t), ih g (a :: p) t]
            all_goals simp only [List.length_cons]
            all_goals omega
          · rw [if_neg hpc, if_neg hpc]
            by_cases hu : a = '_'
            · rw [if_pos hu, if_pos hu, ih g p t]
              all_goals omega
            · rw [if_neg hu, if_neg hu, ih g p t]
              all_goals omega

/-- Equation of `likeMatch` on an empty pattern. -/
theorem likeMatch_nil (t : List Char) : likeMatch [] t = t.isEmpty := rfl

/-- Equation of `likeMatch` on an empty text. -/
theorem likeMatch_cons_nil (a : Char) (p : List Char) :
    likeMatch (a :: p) [] = if a = '%' then likeMatch p [] else false := rfl

/-- Equation of `likeMatch` on non-empty pattern and text. -/
theorem likeMatch_cons_cons (a c : Char) (p t : List Char) :
    likeMatch (a :: p) (c :: t) =
      (if a = '%' then likeMatch p (c :: t) || likeMatch (a :: p) t
       else if a = '_' then likeMatch p t
       else (a.toLower == c.toLower) && likeMatch p t) := by
  have e1 : likeMatchAux (p.length + 1 + (t.length + 1)) p (c :: t)
      = likeMatch p (c :: t) := by
    apply likeMatchAux_congr
    all_goals try simp only [List.length_cons, likeMatch]
    all_goals omega
  have e2 : likeMatchAux (p.length + 1 + (t.length + 1)) (a :: p) t
      = likeMatch (a :: p) t := by
    apply likeMatchAux_congr
    all_goals try simp only [List.length_cons, likeMatch]
    all_goals omega
  have e3 : likeMatchAux (p.length + 1 + (t.length + 1)) p t
      = likeMatch p t := by
    apply likeMatchAux_congr
    all_goals omega
  show (if a = '%' then
          likeMatchAux (p.length + 1 + (t.length + 1)) p (c :: t) ||
            likeMatchAux (p.length + 1 + (t.length + 1)) (a :: p) t
        else if a = '_' then likeMatchAux (p.length + 1 + (t.length + 1)) p t
        else (a.toLower == c.toLower) &&
            likeMatchAux (p.length + 1 + (t.length + 1)) p t) = _
  rw [e1, e2, e3]

/-- A single `%` matches every text. -/
theorem likeMatch_pct_nil (t : List Char) : likeMatch ['%'] t = true := by
  induction t with
  | nil => rfl
  | cons c t ih =>
    rw [likeMatch_cons_cons, if_pos rfl, ih]
    simp

/-- A leading `%` matches exactly when the rest of the pattern matches some
suffix of the text. -/
theorem likeMatch_pct (p t : List Char) :
    likeMatch ('%' :: p) t = true ↔ ∃ i, likeMatch p (t.drop i) = true := by
  induction t with
  | nil =>
    rw [likeMatch_cons_nil, if_pos rfl]
    constructor
    · intro h
      exact ⟨0, h⟩
    · rintro ⟨i, h⟩
      simpa using h
  | cons c t ih =>
    rw [likeMatch_cons_cons, if_pos rfl]
    simp only [Bool.or_eq_true, ih]
    constructor
    · rintro (h | ⟨i, h⟩)
      · exact ⟨0, h⟩
      · exact ⟨i + 1, h⟩
    · rintro ⟨i, h⟩
      cases i with
      | zero => exact Or.inl h
      | succ i => exact Or.inr ⟨i, h⟩

/-- On a wildcard-free literal followed by `%`, LIKE matching is a
case-folded initial-segment check. -/
theorem likeMatch_literal (s : List Char) (t : List Char)
    (h : ∀ c ∈ s, ¬ c = '%' ∧ ¬ c = '_') :
    likeMatch (s ++ ['%']) t = prefixCheck (lowerStr s) (lowerStr t) := by
  induction s generalizing t with
  | nil =>
    simp only [List.nil_append, likeMatch_pct_nil, lowerStr, List.map_nil]
    rfl
  | cons a s ih =>
    have ha := h a (List.mem_cons_self a s)
    have hs : ∀ c ∈ s, ¬ c = '%' ∧ ¬ c = '_' := fun c hc => h c (List.mem_cons_of_mem a hc)
    cases t with
    | nil =>
      rw [List.cons_append, likeMatch_cons_nil, if_neg ha.1]
      rfl
    | cons c t =>
      rw [List.cons_append, likeMatch_cons_cons, if_neg ha.1, if_neg ha.2, ih t hs]
      rfl

/-- Containment is an initial-segment check at some suffix. -/
theorem containsSub_iff (n h : List Char) :
    containsSub n h = true ↔ ∃ i, prefixCheck n (h.drop i) = true := by
  induction h with
  | nil =>
    simp only [containsSub]
    constructor
    · intro hp
      exact ⟨0, hp⟩
    · rintro ⟨i, hp⟩
      simpa using hp
  | cons c t ih =>
    simp only [containsSub, Bool.or_eq_true, ih]
    constructor
    · rintro (hp | ⟨i, hp⟩)
      · exact ⟨0, hp⟩
      · exact ⟨i + 1, hp⟩
    · rintro ⟨i, hp⟩
      cases i with
      | zero => exact Or.inl hp
      | succ i => exact Or.inr ⟨i, hp⟩

/-- Case folding commutes with dropping a prefix of the text. -/
theorem lowerStr_drop (t : List Char) (i : Nat) :
    lowerStr (t.drop i) = (lowerStr t).drop i := by
  simp [lowerStr, List.map_drop]

/-- On wildcard-free search terms, the `ilike` pattern built by the search
branch tests exactly case-insensitive substring containment. -/
theorem likeMatch_searchPattern (s q : String) (h : noWild s = true) :
    likeMatch (searchPattern s) q.data = containsCI s q := by
  have h' : ∀ c ∈ s.data, ¬ c = '%' ∧ ¬ c = '_' := by
    intro c hc
    have := List.all_eq_true.mp h c hc
    simpa using this
  have key : likeMatch (searchPattern s) q.data = true ↔ containsCI s q = true := by
    unfold searchPattern containsCI
    rw [likeMatch_pct, containsSub_iff]
    constructor
    · rintro ⟨i, hi⟩
      refine ⟨i, ?_⟩
      rw [← lowerStr_drop, ← likeMatch_literal s.data (q.data.drop i) h']
      exact hi
    · rintro ⟨i, hi⟩
      refine ⟨i, ?_⟩
      rw [likeMatch_literal s.data (q.data.drop i) h', lowerStr_drop]
      exact hi
  cases hb : containsCI s q
  · cases hl : likeMatch (searchPattern s) q.data
    · rfl
    · rw [key.mp hl] at hb
      exact hb.symm ▸ rfl
  · exact key.mpr hb

/-- Formatting is the identity on whole lists. -/
theorem map_format (l : List Question) : l.map Question.format = l := by
  induction l with
  | nil => rfl
  | cons q qs ih => simp [Question.format, ih]

/-- C2: for every ordered sequence of formatted records and every effective
page number p at least 1 (read from the page query parameter, defaulting to 1
when the parameter is absent or malformed), the pagination utility returns
exactly the sub-sequence at offset (p-1)*10 of length at most 10, and for
pages past the last record it returns the empty sequence without error. -/
theorem pagination_contract (req : HttpRequest) (selection : List Question)
    (h1 : 1 ≤ argsGetPage req 1) :
    paginate_questions req selection 1
      = ((selection.map Question.format).drop ((argsGetPage req 1 - 1) * 10).toNat).take 10
    ∧ (paginate_questions req selection 1).length ≤ 10
    ∧ (selection.length ≤ ((argsGetPage req 1 - 1) * 10).toNat →
        paginate_questions req selection 1 = [])
    ∧ argsGetPage ⟨none⟩ 1 = 1
    ∧ argsGetPage ⟨some none⟩ 1 = 1 := by
  have he := paginate_pos req selection 1 h1
  refine ⟨he, ?_, ?_, rfl, rfl⟩
  · rw [he]
    have := List.length_take_le 10
      ((selection.map Question.format).drop ((argsGetPage req 1 - 1) * 10).toNat)
    exact this
  · intro hle
    rw [he]
    have hnil : (selection.map Question.format).drop ((argsGetPage req 1 - 1) * 10).toNat
        = [] := by
      apply List.drop_eq_nil_of_le
      simpa using hle
    rw [hnil]
    rfl

/-- Witness for C2 at page 2 of the eleven-question fixture. -/
theorem pagination_contract_witness :
    paginate_questions (reqPage 2) qs11 1
      = ((qs11.map Question.format).drop ((argsGetPage (reqPage 2) 1 - 1) * 10).toNat).take 10 :=
  (pagination_contract (reqPage 2) qs11 (by decide)).1

/-- C3: for every list of questions, every page holds at most 10 questions,
and concatenating pages 1 through ceil(n/10) in order reconstructs the full
ordered question list with no duplicates and no omissions. -/
theorem pages_partition (l : List Question) :
    (∀ p : Nat, (paginate_questions (reqPage ((p : Int) + 1)) l 1).length ≤ 10)
    ∧ ((List.range ((l.length + 9) / 10)).map
        (fun i : Nat => paginate_questions (reqPage ((i : Int) + 1)) l 1)).flatten
      = l.map Question.format := by
  have hpt : ∀ i : Nat, paginate_questions (reqPage ((i : Int) + 1)) l 1
      = ((l.map Question.format).drop (i * 10)).take 10 := by
    intro i
    have h1 : 1 ≤ argsGetPage (reqPage ((i : Int) + 1)) 1 := by
      simp [argsGetPage, reqPage]
    rw [paginate_pos (reqPage ((i : Int) + 1)) l 1 h1]
    have : ((argsGetPage (reqPage ((i : Int) + 1)) 1 - 1) * 10).toNat = i * 10 := by
      simp [argsGetPage, reqPage]
      omega
    rw [this]
  constructor
  · intro p
    rw [hpt p]
    exact List.length_take_le 10 _
  · have hmap : (List.range ((l.length + 9) / 10)).map
          (fun i : Nat => paginate_questions (reqPage ((i : Int) + 1)) l 1)
        = (List.range ((l.length + 9) / 10)).map
          (fun i : Nat => ((l.map Question.format).drop (i * 10)).take 10) := by
      apply List.map_congr_left
      intro a _
      exact hpt a
    rw [hmap, join_chunks]
    apply List.take_of_length_le
    simp only [List.length_map]
    omega

/-- Witness for C3 on the eleven-question fixture. -/
theorem pages_partition_witness :
    ((List.range ((qs11.length + 9) / 10)).map
        (fun i : Nat => paginate_questions (reqPage ((i : Int) + 1)) qs11 1)).flatten
      = qs11.map Question.format :=
  (pages_partition qs11).2

/-- A Python slice with stop 0 is always empty. -/
theorem pySlice_stop_zero {α : Type} (l : List α) (a : Int) : pySlice l a 0 = [] := by
  simp only [pySlice]
  have h0 : ¬ ((0 : Int) < 0) := by omega
  rw [if_neg h0]
  have hs : 0 ≤ (if a < 0 then max ((l.length : Int) + a) 0 else min a (l.length : Int)) := by
    split
    · exact le_max_right _ _
    · have : 0 ≤ (l.length : Int) := by omega
      omega
  have hcount : (min (0 : Int) (l.length : Int)
      - (if a < 0 then max ((l.length : Int) + a) 0 else min a (l.length : Int))).toNat
      = 0 := by
    omega
  rw [hcount]
  rfl

/-- Pagination with an effective page number of 0 is always empty. -/
theorem paginate_page_zero (req : HttpRequest) (sel : List Question)
    (h0 : argsGetPage req 1 = 0) : paginate_questions req sel 1 = [] := by
  simp only [paginate_questions, h0, QUESTIONS_PER_PAGE]
  have : ((0 : Int) - 1) * ((10 : Nat) : Int) + ((10 : Nat) : Int) = 0 := by
    decide
  rw [this, pySlice_stop_zero]

/-- C10: a page parameter parsing to p is fed to the Python slice at bounds
(p-1)*10 and (p-1)*10+10; page 0 always yields the empty list (hence GET
/questions?page=0 is a 404), while page -1 on a twenty-question store yields
the first ten questions, a non-empty result. -/
theorem nonpositive_page_slicing :
    (∀ (req : HttpRequest) (sel : List Question) (p : Int),
        req.pageArg = some (some p) →
        paginate_questions req sel 1
          = pySlice (sel.map Question.format) ((p - 1) * 10) ((p - 1) * 10 + 10))
    ∧ (∀ (req : HttpRequest) (sel : List Question),
        argsGetPage req 1 = 0 → paginate_questions req sel 1 = [])
    ∧ (∀ s : Storage, retrieve_questions (reqPage 0) s = .error (.http .notFound))
    ∧ paginate_questions (reqPage (-1)) qs20 1 = (qs20.map Question.format).take 10
    ∧ paginate_questions (reqPage (-1)) qs20 1 ≠ [] := by
  refine ⟨?_, ?_, ?_, by decide, by decide⟩
  · intro req sel p hp
    simp only [paginate_questions, argsGetPage, hp, QUESTIONS_PER_PAGE]
    norm_num
  · intro req sel h0
    exact paginate_page_zero req sel h0
  · intro s
    have hempty : paginate_questions (reqPage 0) (sortById s.questions) 1 = [] :=
      paginate_page_zero (reqPage 0) (sortById s.questions) rfl
    simp [retrieve_questions, hempty]

/-- Witness for C10 on the twenty-question fixture at page 0. -/
theorem nonpositive_page_slicing_witness :
    paginate_questions (reqPage 0) qs20 1 = [] :=
  nonpositive_page_slicing.2.1 (reqPage 0) qs20 rfl

/-- C1 (intent per the spec and the source's own comment, behavior differs):
for a DELETE on an id with no stored question, the handler responds 422
"unprocessable", not 404 "resource not found", because the abort(404) is
raised inside the handler's bare try/except which remaps every exception to
422. -/
theorem delete_missing_id_yields_422 (req : HttpRequest) (s : Storage) (qid : Nat)
    (h : s.questions.find? (fun q => q.id == qid) = none) :
    delete_question req s qid = .error (.http .unprocessable)
    ∧ errorResponse .unprocessable = (⟨false, 422, "unprocessable"⟩, 422)
    ∧ errorResponse .notFound = (⟨false, 404, "resource not found"⟩, 404) := by
  refine ⟨?_, rfl, rfl⟩
  simp [delete_question, h]

/-- Witness for C1: deleting id 99 from an empty store responds 422. -/
theorem delete_missing_id_yields_422_witness :
    delete_question reqNone storeEmpty 99 = .error (.http .unprocessable) :=
  (delete_missing_id_yields_422 reqNone storeEmpty 99 rfl).1

/-- Members of a Python slice are members of the sliced list. -/
theorem mem_pySlice {α : Type} {q : α} {l : List α} {a b : Int}
    (h : q ∈ pySlice l a b) : q ∈ l := by
  simp only [pySlice] at h
  exact List.mem_of_mem_drop (List.mem_of_mem_take h)

/-- C6: GET /categories/{id}/questions responds 400 when the category id is
unknown; when it exists, the handler succeeds unconditionally (even with an
empty page), every returned question belongs to the requested category, and
the payload carries the total count and the category label. -/
theorem questions_by_category_contract (req : HttpRequest) (s : Storage)
    (category_id : Nat) :
    (s.categories.find? (fun c => c.id == category_id) = none →
        retrieve_questions_by_selected_category req s category_id
          = .error (.http .badRequest))
    ∧ (∀ cat, s.categories.find? (fun c => c.id == category_id) = some cat →
        retrieve_questions_by_selected_category req s category_id
          = .ok ⟨paginate_questions req (s.questions.filter (fun q => q.category == cat.id)) 1,
                (s.questions.filter (fun q => q.category == cat.id)).length, cat.type⟩
        ∧ ∀ q ∈ paginate_questions req (s.questions.filter (fun q => q.category == cat.id)) 1,
            q.category = category_id) := by
  constructor
  · intro h
    simp [retrieve_questions_by_selected_category, h]
  · intro cat hc
    have hcat : cat.id = category_id := by
      have := List.find?_some hc
      simpa using this
    refine ⟨by simp [retrieve_questions_by_selected_category, hc], ?_⟩
    intro q hq
    have hq' : q ∈ (s.questions.filter (fun r => r.category == cat.id)).map Question.format := by
      simp only [paginate_questions] at hq
      exact mem_pySlice hq
    rw [map_format] at hq'
    have := (List.mem_filter.mp hq').2
    simp only [beq_iff_eq] at this
    rw [this, hcat]

/-- Witness for C6 on the one-question fixture and its category. -/
theorem questions_by_category_contract_witness :
    retrieve_questions_by_selected_category reqNone storeAbc 1
      = .ok ⟨paginate_questions reqNone
              (storeAbc.questions.filter (fun q => q.category == (1 : Nat))) 1,
            (storeAbc.questions.filter (fun q => q.category == (1 : Nat))).length,
            "Science"⟩ :=
  ((questions_by_category_contract reqNone storeAbc 1).2 ⟨1, "Science"⟩ rfl).1

/-- C7: with both quiz body fields present, the handler draws from the
candidate pool (all questions for category id 0, otherwise that category's
questions, minus the previously asked ids): an empty pool yields success
with no question, every pool index is a possible output of the random
choice, and any returned question is a pool member. -/
theorem quiz_pool_contract (s : Storage) (pq : List Nat) (qc : QuizCategory)
    (choice : Nat) :
    (quizPool s pq qc = [] →
        create_quiz_questions s ⟨some pq, some qc⟩ choice = .ok none)
    ∧ (∀ i, (hi : i < (quizPool s pq qc).length) →
        create_quiz_questions s ⟨some pq, some qc⟩ i
          = .ok (some (Question.format ((quizPool s pq qc).get ⟨i, hi⟩))))
    ∧ (quizPool s pq qc ≠ [] →
        ∃ q ∈ quizPool s pq qc,
          create_quiz_questions s ⟨some pq, some qc⟩ choice
            = .ok (some (Question.format q))) := by
  have hfilt : ∀ l : List Question, l.filter (fun q => ! ([] : List Nat).contains q.id) = l := by
    intro l
    induction l with
    | nil => rfl
    | cons x xs ih =>
      rw [List.filter_cons_of_pos]
      · rw [ih]
      · rfl
  have hsel : (if pq.length ≠ 0 then
        (if qc.id = 0 then s.questions
         else s.questions.filter (fun q => q.category == qc.id)).filter
          (fun q => ! pq.contains q.id)
      else (if qc.id = 0 then s.questions
         else s.questions.filter (fun q => q.category == qc.id)))
      = quizPool s pq qc := by
    by_cases hp : pq.length ≠ 0
    · rw [if_pos hp]
      rfl
    · rw [if_neg hp]
      have hpq : pq = [] := List.length_eq_zero.mp (by omega)
      subst hpq
      simp only [quizPool]
      rw [hfilt]
  refine ⟨?_, ?_, ?_⟩
  · intro hempty
    simp only [create_quiz_questions]
    rw [hsel]
    simp only [choose_random]
    rw [dif_pos (by rw [hempty]; rfl)]
  · intro i hi
    simp only [create_quiz_questions]
    rw [hsel]
    simp only [choose_random]
    rw [dif_neg (by omega)]
    have hmod : i % (quizPool s pq qc).length = i := Nat.mod_eq_of_lt hi
    simp only [hmod]
  · intro hne
    simp only [create_quiz_questions]
    rw [hsel]
    have hlen : (quizPool s pq qc).length ≠ 0 := by
      intro h0
      exact hne (List.length_eq_zero.mp h0)
    simp only [choose_random]
    rw [dif_neg hlen]
    exact ⟨(quizPool s pq qc).get ⟨choice % (quizPool s pq qc).length,
        Nat.mod_lt _ (Nat.pos_of_ne_zero hlen)⟩,
      List.get_mem _ _ _, rfl⟩

/-- Witness for C7 on the one-question fixture with nothing excluded. -/
theorem quiz_pool_contract_witness :
    create_quiz_questions storeAbc ⟨some [], some ⟨1, "Science"⟩⟩ 0
      = .ok (some (Question.format
          ((quizPool storeAbc [] ⟨1, "Science"⟩).get ⟨0, by decide⟩))) :=
  (quiz_pool_contract storeAbc [] ⟨1, "Science"⟩ 0).2.1 0 (by decide)

/-- The random-choice tail never produces an error value. -/
theorem choose_random_ne_error (l : List Question) (c : Nat) (e : PyExc) :
    choose_random l c ≠ .error e := by
  simp only [choose_random]
  split
  · simp
  · simp

/-- C9: POST /quizzes responds 400 exactly when previous_questions or
quiz_category is null/absent from the body; in particular an empty
previous_questions list is valid and never triggers the error. -/
theorem quiz_validation_iff (s : Storage) (body : QuizBody) (choice : Nat) :
    create_quiz_questions s body choice = .error (.http .badRequest)
      ↔ (body.previous_questions = none ∨ body.quiz_category = none) := by
  rcases body with ⟨pq, qc⟩
  cases pq with
  | none => simp [create_quiz_questions]
  | some pq =>
    cases qc with
    | none => simp [create_quiz_questions]
    | some qc =>
      simp only [create_quiz_questions]
      constructor
      · intro h
        exact absurd h (choose_random_ne_error _ _ _)
      · rintro (h | h)
        · exact absurd h (Option.some_ne_none _)
        · exact absurd h (Option.some_ne_none _)

/-- C8: a POST /questions create request (searchTerm absent or empty) with
any of the four required fields absent/null, or whose insert raises, responds
422 unprocessable. -/
theorem create_validation_422 (req : HttpRequest) (s : Storage) (body : RequestBody)
    (insertOk : Bool) (hterm : truthy body.searchTerm = false)
    (hmiss : body.question = none ∨ body.answer = none ∨ body.category = none
      ∨ body.difficulty = none ∨ insertOk = false) :
    create_search_question req s body insertOk = .error (.http .unprocessable) := by
  rcases body with ⟨st, q, a, c, d⟩
  simp only at hterm hmiss
  cases q <;> cases a <;> cases c <;> cases d <;> cases insertOk <;>
    simp_all [create_search_question]

/-- Witness for C8: a create body missing its question text responds 422. -/
theorem create_validation_422_witness :
    create_search_question reqNone storeEmpty ⟨none, none, some "a", some 1, some 1⟩ true
      = .error (.http .unprocessable) :=
  create_validation_422 reqNone storeEmpty ⟨none, none, some "a", some 1, some 1⟩ true
    rfl (Or.inl rfl)

/-- Witness for C9: a body with absent previous_questions responds 400. -/
theorem quiz_validation_iff_witness :
    create_quiz_questions storeEmpty ⟨none, some ⟨1, "Science"⟩⟩ 0
      = .error (.http .badRequest) :=
  (quiz_validation_iff storeEmpty ⟨none, some ⟨1, "Science"⟩⟩ 0).mpr (Or.inl rfl)

/-- C4 (amended): for a create request with all four fields, a successful
insert, and no usable page query parameter, the handler persists the record,
the count rises by exactly one, and the response carries the new id, the new
total, and the contents of the last page ceil(total/10); the internally
computed page number is only the default for the page lookup. -/
theorem create_appends_last_page (req : HttpRequest) (s : Storage) (body : RequestBody)
    (nq na : String) (nc nd : Nat)
    (hterm : truthy body.searchTerm = false)
    (hq : body.question = some nq) (ha : body.answer = some na)
    (hc : body.category = some nc) (hd : body.difficulty = some nd)
    (hreq : req.pageArg = none ∨ req.pageArg = some none) :
    create_search_question req s body true
      = .ok (⟨s.questions ++ [⟨s.nextId, nq, na, nc, nd⟩], s.categories, s.nextId + 1⟩,
          .createRes s.nextId
            ((((sortById (s.questions ++ [⟨s.nextId, nq, na, nc, nd⟩])).map
                Question.format).drop
              (((s.questions.length + 1 + 9) / 10 - 1) * 10)).take 10)
            (s.questions.length + 1)) := by
  have hlen : (sortById (s.questions ++ [⟨s.nextId, nq, na, nc, nd⟩])).length
      = s.questions.length + 1 := by
    simp [sortById, length_sortByKey]
  simp only [create_search_question, hterm, Bool.false_eq_true, if_false,
    hq, ha, hc, hd, if_true]
  rw [hlen]
  have hpage : argsGetPage req (((s.questions.length + 1 + 9) / 10 : Nat) : Int)
      = (((s.questions.length + 1 + 9) / 10 : Nat) : Int) := by
    rcases hreq with h | h
    · simp [argsGetPage, h]
    · simp [argsGetPage, h]
  have h1 : 1 ≤ argsGetPage req (((s.questions.length + 1 + 9) / 10 : Nat) : Int) := by
    rw [hpage]
    have : 1 ≤ (s.questions.length + 1 + 9) / 10 := by omega
    omega
  rw [paginate_pos req (sortById (s.questions ++ [Question.mk s.nextId nq na nc nd]))
    (((s.questions.length + 1 + 9) / 10 : Nat) : Int) h1, hpage]
  have hcast : (((((s.questions.length + 1 + 9) / 10 : Nat) : Int) - 1) * 10).toNat
      = ((s.questions.length + 1 + 9) / 10 - 1) * 10 := by
    have : 1 ≤ (s.questions.length + 1 + 9) / 10 := by omega
    omega
  rw [hcast]

/-- Counterexample for C4 as stated: a create request whose URL carries
page=1, against eleven stored questions, answers with page 1 (the first ten
questions), not with the contents of the last page (page 2). -/
theorem create_with_page_param_counterexample :
    create_search_question (reqPage 1) store11 body11 true
      = .ok (⟨qs11 ++ [⟨12, "nq", "na", 1, 1⟩], [⟨1, "Science"⟩], 13⟩,
          .createRes 12 firstTen 12)
    ∧ firstTen
      ≠ (((sortById (qs11 ++ [⟨12, "nq", "na", 1, 1⟩])).map Question.format).drop
          (((12 + 9) / 10 - 1) * 10)).take 10 := by
  constructor
  · rfl
  · decide

/-- Witness for C4 (amended) on the one-question fixture. -/
theorem create_appends_last_page_witness :
    create_search_question reqNone storeAbc body11 true
      = .ok (⟨storeAbc.questions ++ [⟨storeAbc.nextId, "nq", "na", 1, 1⟩],
              storeAbc.categories, storeAbc.nextId + 1⟩,
          .createRes storeAbc.nextId
            ((((sortById (storeAbc.questions
                  ++ [⟨storeAbc.nextId, "nq", "na", 1, 1⟩])).map
                Question.format).drop
              (((storeAbc.questions.length + 1 + 9) / 10 - 1) * 10)).take 10)
            (storeAbc.questions.length + 1)) :=
  create_appends_last_page reqNone storeAbc body11 "nq" "na" 1 1 rfl rfl rfl rfl rfl
    (Or.inl rfl)

/-- C5 (amended): for a non-empty, wildcard-free searchTerm, the search
branch returns exactly the questions whose text contains the term as a
case-insensitive substring, paginated, with the total match count, and
responds 404 when the match set is empty. -/
theorem search_substring_contract (req : HttpRequest) (s : Storage) (body : RequestBody)
    (search : String) (hterm : body.searchTerm = some search)
    (hne : ¬ search.data = []) (hw : noWild search = true) :
    ((sortById s.questions).filter (fun q => containsCI search q.question) = [] →
        create_search_question req s body true = .error (.http .notFound))
    ∧ ((sortById s.questions).filter (fun q => containsCI search q.question) ≠ [] →
        create_search_question req s body true
          = .ok (s, .searchRes
              (paginate_questions req
                ((sortById s.questions).filter (fun q => containsCI search q.question)) 1)
              ((sortById s.questions).filter (fun q => containsCI search q.question)).length)) := by
  have htr : truthy (some search) = true := decide_eq_true hne
  have hfeq : (sortById s.questions).filter
        (fun q => likeMatch (searchPattern search) q.question.data)
      = (sortById s.questions).filter (fun q => containsCI search q.question) := by
    apply List.filter_congr
    intro x _
    exact likeMatch_searchPattern search x.question hw
  constructor
  · intro hempty
    simp only [create_search_question, hterm, Option.getD_some]
    rw [if_pos htr, hfeq, hempty]
    rfl
  · intro hne2
    simp only [create_search_question, hterm, Option.getD_some]
    rw [if_pos htr, hfeq,
      if_neg (fun h0 => hne2 (List.length_eq_zero.mp h0))]

/-- Counterexample for C5 as stated: searching for the term "%" returns the
question "abc" even though "abc" does not contain "%" as a substring - the
term is interpreted as a LIKE wildcard, not literally. -/
theorem search_wildcard_counterexample :
    create_search_question reqNone storeAbc bodyPct true
      = .ok (storeAbc, .searchRes [Question.format qAbc] 1)
    ∧ containsCI "%" "abc" = false := by
  exact ⟨rfl, rfl⟩

/-- Witness for C5 (amended): searching "AB" finds the question "xaBy". -/
theorem search_substring_contract_witness :
    create_search_question reqNone storeAB bodyAB true
      = .ok (storeAB, .searchRes
          (paginate_questions reqNone
            ((sortById storeAB.questions).filter (fun q => containsCI "AB" q.question)) 1)
          ((sortById storeAB.questions).filter (fun q => containsCI "AB" q.question)).length) :=
  (search_substring_contract reqNone storeAB bodyAB "AB" rfl (by decide) (by decide)).2
    (by decide)

end Trivia
